import Mathlib

/-!
Shallow embedding of `pkg/canary/comparator/comparator.go` (loki canary comparator).

Modelling conventions:
* Go `time.Time` is modelled by its `UnixNano` value, an `Int`; `time.Duration` is an
  `Int` number of nanoseconds. `t.Equal u` is `t = u`, `t.Before u` is `t < u`,
  `t.Sub u` is `t - u`, `t.Add d` is `t + d`.
* Prometheus counters are `Nat` fields of the state; the gauge value is a `Rat`
  (Go uses `float64`; the claims under study only concern which value is stored,
  at inputs where the rational and floating computation coincide).
* The mutexes serialize access; the embedding is the sequential semantics of each
  function body. `time.Now()` inside `pruneEntries` is modelled by a single `now`
  parameter for the whole tick.
* The Loki reader (`rdr`) is passed as an explicit function
  `query : Time → Time → Except String (List Time)`; a `QueryCountOverTime` outcome
  is passed as the returned count together with an optional error.
* `fmt.Fprintf` output lines are modelled as a list of `LogEvent` values carrying
  the data being formatted (the exact format strings are irrelevant to the claims).
-/

namespace LokiCanary

/-- Go `time.Time`, identified with its UnixNano value. -/
abbrev Time := Int

/-- Go `time.Duration`, in nanoseconds. -/
abbrev Duration := Int

/-- 10 * time.Second in nanoseconds appears in the query-range computations. -/
def nsPerSecond : Int := 1000000000

/-- One diagnostic output line written to the comparator's `io.Writer`
(the constant format strings at comparator.go:15-24, applied to their arguments). -/
inductive LogEvent where
  | outOfOrderEntry (ts : Time)
  | duplicateEntry (ts : Time)
  | unexpectedEntry (ts : Time)
  | entryNotReceivedWs (ts : Time)
  | entryNotReceived (ts : Time)
  | spotCheckEntryNotReceived (ts : Time)
  | debugWebsocketMissingEntry (ts : Time)
  | debugQueryResult (ts : Time)
  | queryError (msg : String)
  | metricQueryError (msg : String)
  | invalidMetricTestRange
deriving DecidableEq, Repr

/-- The `Comparator` state (comparator.go:70-94): the three buffers, the
configuration durations, the prometheus counters it increments, and the diagnostic
output written so far. Channels, tickers and run-guard flags belong to the
concurrency shell and are not part of the per-call semantics modelled here. -/
structure Comparator where
  entries : List Time
  spotCheck : List Time
  ackdEntries : List Time
  maxWait : Duration
  spotCheckInterval : Duration
  spotCheckMax : Duration
  metricTestRagenDur : Duration
  writeInterval : Duration
  totalEntries : Nat
  outOfOrderEntries : Nat
  wsMissingEntries : Nat
  missingEntries : Nat
  spotCheckMissing : Nat
  unexpectedEntries : Nat
  duplicateEntries : Nat
  log : List LogEvent
deriving DecidableEq, Repr

/-- `entrySent` (comparator.go:159-170): append the timestamp to the pending buffer;
if the spot-check buffer is empty or the new timestamp is at least
`spotCheckInterval` past the last sampled timestamp
(`time.Sub(*c.spotCheck[len(c.spotCheck)-1]) >= c.spotCheckInterval`),
append it to the spot-check buffer too; increment the total-entries counter. -/
def entrySent (c : Comparator) (t : Time) : Comparator :=
  let spotCheck :=
    match c.spotCheck.getLast? with
    | none => c.spotCheck ++ [t]
    | some last => if c.spotCheckInterval ≤ t - last then c.spotCheck ++ [t] else c.spotCheck
  { c with entries := c.entries ++ [t], spotCheck := spotCheck,
           totalEntries := c.totalEntries + 1 }

/-- Result of the single scan over `c.entries` performed by `entryReceived`
(comparator.go:177-199): the compacted buffer (retained elements in order), whether
any element matched, how many times `outOfOrderEntries.Inc()` ran, the matched
elements appended to `ackdEntries`, and the out-of-order diagnostic lines. -/
structure ScanResult where
  kept : List Time
  matched : Bool
  oooInc : Nat
  acks : List Time
  oooLogs : List LogEvent
deriving DecidableEq, Repr

/-- The loop body of comparator.go:180-199, with `i` the index of the current
element in the original slice. A matching element (`ts.Equal(*e)`) is dropped from
the output and appended to the acknowledged list; if its index is not 0 the
out-of-order counter is incremented and a diagnostic line written. A non-matching
element is compacted into the output, preserving relative order. -/
def receiveScan (ts : Time) : Nat → List Time → ScanResult
  | _, [] => ⟨[], false, 0, [], []⟩
  | i, e :: rest =>
    let r := receiveScan ts (i + 1) rest
    if ts = e then
      { kept := r.kept, matched := true,
        oooInc := if i = 0 then r.oooInc else r.oooInc + 1,
        acks := e :: r.acks,
        oooLogs := if i = 0 then r.oooLogs else LogEvent.outOfOrderEntry e :: r.oooLogs }
    else
      { r with kept := e :: r.kept }

/-- `entryReceived` (comparator.go:173-220): scan the pending buffer once, dropping
every element equal to `ts` (moving it to the acknowledged buffer, counting
out-of-order matches); if nothing matched, classify as duplicate when `ts` is in the
acknowledged buffer (first hit breaks the Go loop, so at most one increment) and as
unexpected otherwise. The compacted buffer is installed in all cases
(`c.entries = c.entries[:k]`). -/
def entryReceived (c : Comparator) (ts : Time) : Comparator :=
  let r := receiveScan ts 0 c.entries
  if r.matched then
    { c with entries := r.kept,
             ackdEntries := c.ackdEntries ++ r.acks,
             outOfOrderEntries := c.outOfOrderEntries + r.oooInc,
             log := c.log ++ r.oooLogs }
  else if c.ackdEntries.contains ts then
    { c with entries := r.kept,
             duplicateEntries := c.duplicateEntries + 1,
             log := c.log ++ [LogEvent.duplicateEntry ts] }
  else
    { c with entries := r.kept,
             unexpectedEntries := c.unexpectedEntries + 1,
             log := c.log ++ [LogEvent.unexpectedEntry ts] }

/-- `confirmMissing` (comparator.go:396-444). The Go code indexes `missing[0]` and
`missing[len(missing)-1]` with no emptiness guard; the embedding returns `none`
exactly when that indexing would panic (empty batch). The query spans
`[first - 10s, last + 10s]`. On query error: log and return. On success: log the
debug dumps, keep only the batch elements absent from the result (the Go inner loop
sets `found` without breaking, which is `recvd.contains m`), and increment
`missingEntries` once per still-missing element. -/
def confirmMissing (c : Comparator) (missing : List Time)
    (query : Time → Time → Except String (List Time)) : Option Comparator :=
  match missing.head?, missing.getLast? with
  | some first, some last =>
    let start := first - 10 * nsPerSecond
    let qEnd := last + 10 * nsPerSecond
    match query start qEnd with
    | Except.error msg => some { c with log := c.log ++ [LogEvent.queryError msg] }
    | Except.ok recvd =>
      let debugLogs := missing.map LogEvent.debugWebsocketMissingEntry
        ++ recvd.map LogEvent.debugQueryResult
      let stillMissing := missing.filter (fun m => !recvd.contains m)
      some { c with
        missingEntries := c.missingEntries + stillMissing.length,
        log := c.log ++ debugLogs ++ stillMissing.map LogEvent.entryNotReceived }
  | _, _ => none

/-- `pruneEntries` (comparator.go:344-394): partition the pending buffer against
`now - maxWait` (`e.Before(time.Now().Add(-c.maxWait))`), keeping fresh entries
compacted in order; each stale entry increments `wsMissingEntries` and is logged;
if any entry went stale, hand the batch to `confirmMissing` (the async flag only
changes scheduling, not the state transition); finally evict stale entries from the
acknowledged buffer. -/
def pruneEntries (c : Comparator) (now : Time)
    (query : Time → Time → Except String (List Time)) : Option Comparator :=
  let missing := c.entries.filter (fun e => decide (e < now - c.maxWait))
  let kept := c.entries.filter (fun e => !decide (e < now - c.maxWait))
  let c1 := { c with entries := kept,
                     wsMissingEntries := c.wsMissingEntries + missing.length,
                     log := c.log ++ missing.map LogEvent.entryNotReceivedWs }
  let c2 := if missing.isEmpty then some c1 else confirmMissing c1 missing query
  match c2 with
  | none => none
  | some c3 =>
    some { c3 with ackdEntries := c3.ackdEntries.filter (fun e => !decide (e < now - c.maxWait)) }

/-- Start of the spot-check query range (comparator.go:320-321):
`start := *sce; start = start.Add(-10 * time.Second)`. -/
def spotCheckStart (sce : Time) : Time := sce - 10 * nsPerSecond

/-- End of the spot-check query range (comparator.go:322): `end := start.Add(10 * time.Second)`
— computed from the already-shifted `start`, so it equals `sce` itself. -/
def spotCheckEnd (sce : Time) : Time := spotCheckStart sce + 10 * nsPerSecond

/-- The verification loop of `spotCheckEntries` (comparator.go:317-341), over the
snapshot of the surviving spot-check entries: query `[spotCheckStart, spotCheckEnd]`
for each entry; a query error logs and returns, aborting the remainder of the run;
otherwise increment `spotCheckMissing` exactly when the entry is absent from the
result (the Go loop sets `found` and breaks, which is `recvd.contains sce`).
Returns the number of `spotCheckMissing.Inc()` calls and the lines logged. -/
def spotCheckLoop (query : Time → Time → Except String (List Time)) :
    List Time → Nat × List LogEvent
  | [] => (0, [])
  | sce :: rest =>
    match query (spotCheckStart sce) (spotCheckEnd sce) with
    | Except.error msg => (0, [LogEvent.queryError msg])
    | Except.ok recvd =>
      let r := spotCheckLoop query rest
      if recvd.contains sce then r
      else (r.1 + 1, LogEvent.spotCheckEntryNotReceived sce :: r.2)

/-- `spotCheckEntries` (comparator.go:288-342): evict spot-check entries older than
`currTime - spotCheckMax` (compacting in order), snapshot the survivors, then run
the verification loop over the snapshot. -/
def spotCheckEntries (c : Comparator) (currTime : Time)
    (query : Time → Time → Except String (List Time)) : Comparator :=
  let kept := c.spotCheck.filter (fun e => !decide (e < currTime - c.spotCheckMax))
  let r := spotCheckLoop query kept
  { c with spotCheck := kept,
           spotCheckMissing := c.spotCheckMissing + r.1,
           log := c.log ++ r.2 }

/-- Go `Duration.Milliseconds()`: integer division by 10^6, truncating toward zero. -/
def milliseconds (d : Duration) : Int := Int.tdiv d 1000000

/-- The value stored into `c.metricTestRagenDur` by `NewComparator`
(comparator.go:137-144). Go `time.ParseDuration` returns the zero duration together
with a non-nil error on failure, and the error-branch assignment `c.metricTestRagenDur = 0`
is immediately followed by the unconditional `c.metricTestRagenDur = d`; either way a
failed parse stores 0. A parse outcome is modelled as `Option Duration`
(`none` = parse error). -/
def newMetricTestRagenDur : Option Duration → Duration
  | none => 0
  | some d => d

/-- Outcome of one `metricTest` invocation: the gauge value after the call, whether
`QueryCountOverTime` was invoked, and the lines logged. -/
structure MetricTestResult where
  gauge : Rat
  queried : Bool
  log : List LogEvent
deriving DecidableEq, Repr

/-- `metricTest` (comparator.go:267-286): if the stored range duration is 0, log a
fixed error and return without querying. Otherwise run `QueryCountOverTime`
(its outcome is passed in as `actualCount` and `qerr`); an error is logged but the
function does NOT return — it falls through and still executes
`metricTestDeviation.Set(expectedCount - actualCount)`. -/
def metricTest (c : Comparator) (gauge : Rat) (actualCount : Rat)
    (qerr : Option String) : MetricTestResult :=
  if c.metricTestRagenDur = 0 then
    { gauge := gauge, queried := false, log := [LogEvent.invalidMetricTestRange] }
  else
    let errLog : List LogEvent :=
      match qerr with
      | some msg => [LogEvent.metricQueryError msg]
      | none => []
    let expectedCount : Rat :=
      (milliseconds c.metricTestRagenDur : Rat) / (milliseconds c.writeInterval : Rat)
    { gauge := expectedCount - actualCount, queried := true, log := errLog }

/-- The spot-check buffer invariant: consecutive sampled timestamps are separated by
at least `interval`. -/
def SpotGapInv (interval : Duration) (l : List Time) : Prop :=
  List.Chain' (fun a b => interval ≤ b - a) l

/-- Executable check for `SpotGapInv`. -/
def spotGapOk (interval : Duration) : List Time → Bool
  | [] => true
  | [_] => true
  | a :: b :: rest => decide (interval ≤ b - a) && spotGapOk interval (b :: rest)

theorem spotGapOk_iff (interval : Duration) :
    ∀ l, spotGapOk interval l = true ↔ SpotGapInv interval l
  | [] => by simp [spotGapOk, SpotGapInv]
  | [a] => by simp [spotGapOk, SpotGapInv]
  | a :: b :: rest => by
    unfold SpotGapInv
    rw [List.chain'_cons]
    have ih := spotGapOk_iff interval (b :: rest)
    unfold SpotGapInv at ih
    rw [← ih]
    simp [spotGapOk, and_comm]

instance (interval : Duration) (l : List Time) : Decidable (SpotGapInv interval l) :=
  decidable_of_iff (spotGapOk interval l = true) (spotGapOk_iff interval l)

/-- A freshly constructed comparator (NewComparator, comparator.go:108-127): empty
buffers, zero counters, no output yet. -/
def mkComparator (maxWait spotCheckInterval spotCheckMax metricTestRagenDur writeInterval : Duration) :
    Comparator :=
  { entries := [], spotCheck := [], ackdEntries := [],
    maxWait := maxWait, spotCheckInterval := spotCheckInterval, spotCheckMax := spotCheckMax,
    metricTestRagenDur := metricTestRagenDur, writeInterval := writeInterval,
    totalEntries := 0, outOfOrderEntries := 0, wsMissingEntries := 0, missingEntries := 0,
    spotCheckMissing := 0, unexpectedEntries := 0, duplicateEntries := 0, log := [] }

/-- Number of elements of `l` equal to `ts` (the number of matches a single
`entryReceived ts` scan finds). -/
def matchCount (ts : Time) (l : List Time) : Nat :=
  l.countP (fun e => decide (ts = e))

section ScanLemmas

variable (ts : Time)

theorem receiveScan_matched (l : List Time) : ∀ i, (receiveScan ts i l).matched = l.contains ts := by
  induction l with
  | nil => intro i; simp [receiveScan]
  | cons e rest ih =>
    intro i
    by_cases h : ts = e <;> simp [receiveScan, h, ih (i + 1)]

theorem receiveScan_kept (l : List Time) :
    ∀ i, (receiveScan ts i l).kept = l.filter (fun e => !decide (ts = e)) := by
  induction l with
  | nil => intro i; simp [receiveScan]
  | cons e rest ih =>
    intro i
    by_cases h : ts = e
    · subst h; simp [receiveScan, ih (i + 1)]
    · simp [receiveScan, h, ih (i + 1)]

theorem receiveScan_acks (l : List Time) :
    ∀ i, (receiveScan ts i l).acks = List.replicate (matchCount ts l) ts := by
  induction l with
  | nil => intro i; simp [receiveScan, matchCount]
  | cons e rest ih =>
    intro i
    by_cases h : ts = e
    · subst h
      simp [receiveScan, ih (i + 1), matchCount, List.countP_cons, List.replicate_succ]
    · simp [receiveScan, h, ih (i + 1), matchCount, List.countP_cons]

theorem receiveScan_ooo_pos (l : List Time) :
    ∀ i, i ≠ 0 → (receiveScan ts i l).oooInc = matchCount ts l := by
  induction l with
  | nil => intro i _; simp [receiveScan, matchCount]
  | cons e rest ih =>
    intro i hi
    by_cases h : ts = e
    · subst h
      simp [receiveScan, hi, ih (i + 1), matchCount, List.countP_cons]
    · simp [receiveScan, h, hi, ih (i + 1), matchCount, List.countP_cons]

theorem receiveScan_ooo_top (e : Time) (rest : List Time) :
    (receiveScan ts 0 (e :: rest)).oooInc =
      if ts = e then matchCount ts rest else matchCount ts (e :: rest) := by
  by_cases h : ts = e
  · subst h
    simp [receiveScan, receiveScan_ooo_pos ts rest 1, matchCount, List.countP_cons]
  · simp [receiveScan, h, receiveScan_ooo_pos ts rest 1, matchCount, List.countP_cons]

end ScanLemmas

/-- Claim C1: the spec says the spot checker queries `[ts - 10s, ts + 10s]`, and the
code's own comment says "make the range plus-minus 10 seconds"; but `end` is computed from
the already-shifted `start` (comparator.go:320-322), so the queried range is
`[ts - 10s, ts]`: at `ts = 0` the range end is `0`, not `0 + 10s`. -/
theorem spotCheck_query_range_bug :
    spotCheckStart 0 = -(10 * nsPerSecond) ∧ spotCheckEnd 0 = 0 ∧
      spotCheckEnd 0 ≠ 0 + 10 * nsPerSecond := by
  decide

/-- Claim C2: the spec says a rate-test query error leaves the deviation gauge at its
previous value, but `metricTest` (comparator.go:280-286) logs the error and then
falls through to `metricTestDeviation.Set`: with a 2s range, a 1s write interval,
previous gauge value 5 and a failing query, the gauge ends at 2, not 5. -/
theorem metricTest_error_still_sets_gauge :
    (metricTest (mkComparator 0 0 0 (2 * nsPerSecond) nsPerSecond) 5 0 (some "boom")).log
        = [LogEvent.metricQueryError "boom"] ∧
      (metricTest (mkComparator 0 0 0 (2 * nsPerSecond) nsPerSecond) 5 0 (some "boom")).gauge = 2 ∧
      (metricTest (mkComparator 0 0 0 (2 * nsPerSecond) nsPerSecond) 5 0 (some "boom")).gauge ≠ 5 := by
  have h1 : milliseconds 2000000000 = 2000 := by decide
  have h2 : milliseconds 1000000000 = 1000 := by decide
  refine ⟨by simp [metricTest, mkComparator, nsPerSecond], ?_, ?_⟩ <;>
    simp [metricTest, mkComparator, h1, h2, nsPerSecond] <;> norm_num

/-- Claim C9: when the rate-test window string fails to parse at construction time,
`NewComparator` stores the zero duration (Go `ParseDuration` returns 0 on failure and
the unconditional assignment at comparator.go:144 stores it), and then every
`metricTest` invocation hits the `metricTestRagenDur == 0` guard: it logs the fixed
error and returns before querying or touching the gauge, for every possible query
outcome and gauge value — the job is permanently a no-op. -/
theorem metricTest_noop_after_parse_failure (c : Comparator)
    (hc : c.metricTestRagenDur = newMetricTestRagenDur none)
    (g actual : Rat) (qerr : Option String) :
    metricTest c g actual qerr =
      { gauge := g, queried := false, log := [LogEvent.invalidMetricTestRange] } := by
  simp [metricTest, hc, newMetricTestRagenDur]

/-- Witness for the parse-failure no-op theorem at a concrete comparator. -/
theorem metricTest_noop_after_parse_failure_witness :
    (mkComparator 0 0 0 (newMetricTestRagenDur none) 0).metricTestRagenDur
        = newMetricTestRagenDur none ∧
      metricTest (mkComparator 0 0 0 (newMetricTestRagenDur none) 0) 7 3 (some "e") =
        { gauge := 7, queried := false, log := [LogEvent.invalidMetricTestRange] } :=
  ⟨rfl, metricTest_noop_after_parse_failure _ rfl 7 3 (some "e")⟩

/-- Claim C5: receiving a timestamp present in neither buffer increments the
unexpected counter by one and leaves the duplicate counter, the pending buffer and
the acknowledged buffer untouched (comparator.go:200-219: no element matches, the
compaction is the identity, and only the `!duplicate` branch runs). -/
theorem entryReceived_unexpected_frame (c : Comparator) (ts : Time)
    (hp : ts ∉ c.entries) (ha : ts ∉ c.ackdEntries) :
    (entryReceived c ts).unexpectedEntries = c.unexpectedEntries + 1 ∧
      (entryReceived c ts).duplicateEntries = c.duplicateEntries ∧
      (entryReceived c ts).entries = c.entries ∧
      (entryReceived c ts).ackdEntries = c.ackdEntries := by
  have hm : (receiveScan ts 0 c.entries).matched = false := by
    rw [receiveScan_matched]
    simpa using hp
  have hk : (receiveScan ts 0 c.entries).kept = c.entries := by
    rw [receiveScan_kept]
    apply List.filter_eq_self.mpr
    intro a hamem
    simp only [Bool.not_eq_eq_eq_not, Bool.not_true, decide_eq_false_iff_not]
    rintro rfl
    exact hp hamem
  have hac : c.ackdEntries.contains ts = false := by simpa using ha
  simp [entryReceived, hm, hk, hac, ha]

/-- Witness for the unexpected-entry frame theorem at a concrete state. -/
theorem entryReceived_unexpected_frame_witness :
    (5 : Time) ∉ ({ mkComparator 0 0 0 0 0 with
        entries := [1, 2], ackdEntries := [3] } : Comparator).entries ∧
      (5 : Time) ∉ ({ mkComparator 0 0 0 0 0 with
        entries := [1, 2], ackdEntries := [3] } : Comparator).ackdEntries ∧
      ((entryReceived { mkComparator 0 0 0 0 0 with
          entries := [1, 2], ackdEntries := [3] } 5).unexpectedEntries = 0 + 1 ∧
        (entryReceived { mkComparator 0 0 0 0 0 with
          entries := [1, 2], ackdEntries := [3] } 5).duplicateEntries = 0 ∧
        (entryReceived { mkComparator 0 0 0 0 0 with
          entries := [1, 2], ackdEntries := [3] } 5).entries = [1, 2] ∧
        (entryReceived { mkComparator 0 0 0 0 0 with
          entries := [1, 2], ackdEntries := [3] } 5).ackdEntries = [3]) :=
  ⟨by decide, by decide,
    entryReceived_unexpected_frame _ 5 (by decide) (by decide)⟩

/-- Out-of-order increments of a full `entryReceived` scan (index starting at 0):
the number of matches, minus one if the very first pending element is the match. -/
theorem receiveScan_ooo_zero (ts : Time) (l : List Time) :
    (receiveScan ts 0 l).oooInc
      = matchCount ts l - (if l.head? = some ts then 1 else 0) := by
  cases l with
  | nil => simp [receiveScan, matchCount]
  | cons e rest =>
    rw [receiveScan_ooo_top]
    by_cases h : ts = e
    · subst h; simp [matchCount, List.countP_cons]
    · simp [h, Ne.symm h, matchCount, List.countP_cons]

/-- The duplicate branch of `entryReceived` (comparator.go:200-209): no pending
match and the timestamp is acknowledged, so only the duplicate counter moves. -/
theorem entryReceived_duplicate_case (c : Comparator) (ts : Time)
    (hp : ts ∉ c.entries) (ha : ts ∈ c.ackdEntries) :
    (entryReceived c ts).outOfOrderEntries = c.outOfOrderEntries ∧
      (entryReceived c ts).duplicateEntries = c.duplicateEntries + 1 ∧
      (entryReceived c ts).unexpectedEntries = c.unexpectedEntries := by
  have hm : (receiveScan ts 0 c.entries).matched = false := by
    rw [receiveScan_matched]; simpa using hp
  have hac : c.ackdEntries.contains ts = true := by simpa using ha
  simp [entryReceived, hm, hac, ha]

/-- Claim C6: a timestamp pending exactly once is moved from the pending buffer to
the end of the acknowledged buffer by its first `entryReceived`, and a second
`entryReceived` of the same timestamp takes the duplicate branch: duplicate counter
up by one, unexpected counter still 0 (comparator.go:177-214). -/
theorem entryReceived_then_duplicate (c : Comparator) (t1 : Time)
    (hcount : matchCount t1 c.entries = 1) (hu : c.unexpectedEntries = 0) :
    t1 ∉ (entryReceived c t1).entries ∧
      (entryReceived c t1).ackdEntries = c.ackdEntries ++ [t1] ∧
      (entryReceived (entryReceived c t1) t1).duplicateEntries
          = (entryReceived c t1).duplicateEntries + 1 ∧
      (entryReceived (entryReceived c t1) t1).unexpectedEntries = 0 := by
  have hmem : t1 ∈ c.entries := by
    have hpos : 0 < c.entries.countP (fun e => decide (t1 = e)) := by
      unfold matchCount at hcount; omega
    obtain ⟨a, hamem, hpa⟩ := List.countP_pos_iff.mp hpos
    have hta : t1 = a := by simpa using hpa
    subst hta
    exact hamem
  have hm1 : (receiveScan t1 0 c.entries).matched = true := by
    rw [receiveScan_matched]; simpa using hmem
  have hacks : (receiveScan t1 0 c.entries).acks = [t1] := by
    rw [receiveScan_acks, hcount]
    rfl
  have hk1 : (entryReceived c t1).entries = (receiveScan t1 0 c.entries).kept := by
    simp [entryReceived, hm1]
  have hA : (entryReceived c t1).ackdEntries = c.ackdEntries ++ [t1] := by
    simp [entryReceived, hm1, hacks]
  have hue : (entryReceived c t1).unexpectedEntries = c.unexpectedEntries := by
    simp [entryReceived, hm1]
  have hnot : t1 ∉ (entryReceived c t1).entries := by
    rw [hk1, receiveScan_kept]
    intro hmemf
    have h2 := (List.mem_filter.mp hmemf).2
    simp at h2
  have hin : t1 ∈ (entryReceived c t1).ackdEntries := by
    rw [hA]; simp
  obtain ⟨_, hd2, hu2⟩ := entryReceived_duplicate_case (entryReceived c t1) t1 hnot hin
  exact ⟨hnot, hA, hd2, by rw [hu2, hue, hu]⟩

/-- Witness for the match-then-duplicate theorem at a concrete state. -/
theorem entryReceived_then_duplicate_witness :
    matchCount 5 ({ mkComparator 0 0 0 0 0 with entries := [5] } : Comparator).entries = 1 ∧
      ((5 : Time) ∉ (entryReceived { mkComparator 0 0 0 0 0 with entries := [5] } 5).entries ∧
        (entryReceived { mkComparator 0 0 0 0 0 with entries := [5] } 5).ackdEntries = [] ++ [5] ∧
        (entryReceived (entryReceived { mkComparator 0 0 0 0 0 with entries := [5] } 5) 5).duplicateEntries
            = (entryReceived { mkComparator 0 0 0 0 0 with entries := [5] } 5).duplicateEntries + 1 ∧
        (entryReceived (entryReceived { mkComparator 0 0 0 0 0 with entries := [5] } 5) 5).unexpectedEntries = 0) :=
  ⟨by decide, entryReceived_then_duplicate _ 5 (by decide) rfl⟩

/-- Claim C4: starting from an empty pending buffer, after sending `t1 < t2 < t3`
and receiving `t2`, the out-of-order counter has moved up by exactly one (the match
sits at index 1, with `t1` still pending) and the compacted pending buffer is
`[t1, t3]` in order (comparator.go:177-219). -/
theorem sent_three_received_middle (c : Comparator) (t1 t2 t3 : Time)
    (hempty : c.entries = []) (h12 : t1 < t2) (h23 : t2 < t3) :
    (entryReceived (entrySent (entrySent (entrySent c t1) t2) t3) t2).outOfOrderEntries
        = c.outOfOrderEntries + 1 ∧
      (entryReceived (entrySent (entrySent (entrySent c t1) t2) t3) t2).entries = [t1, t3] := by
  have hne1 : t2 ≠ t1 := ne_of_gt h12
  have hne3 : t2 ≠ t3 := ne_of_lt h23
  have hent : (entrySent (entrySent (entrySent c t1) t2) t3).entries = [t1, t2, t3] := by
    simp [entrySent, hempty]
  have hooo : (entrySent (entrySent (entrySent c t1) t2) t3).outOfOrderEntries
      = c.outOfOrderEntries := by
    simp [entrySent]
  have hm : (receiveScan t2 0 [t1, t2, t3]).matched = true := by
    rw [receiveScan_matched]; simp
  have hin : (receiveScan t2 0 [t1, t2, t3]).oooInc = 1 := by
    rw [receiveScan_ooo_top]
    simp [hne1, hne3, matchCount, List.countP_cons]
  have hk : (receiveScan t2 0 [t1, t2, t3]).kept = [t1, t3] := by
    rw [receiveScan_kept]
    simp [hne1, hne3]
  constructor
  · simp [entryReceived, hent, hm, hin, hooo]
  · simp [entryReceived, hent, hm, hk]

/-- Witness for the sent-sent-sent-received-middle theorem at 1 < 2 < 3. -/
theorem sent_three_received_middle_witness :
    (mkComparator 0 0 0 0 0).entries = [] ∧ (1 : Time) < 2 ∧ (2 : Time) < 3 ∧
      ((entryReceived (entrySent (entrySent (entrySent (mkComparator 0 0 0 0 0) 1) 2) 3) 2).outOfOrderEntries
          = (mkComparator 0 0 0 0 0).outOfOrderEntries + 1 ∧
        (entryReceived (entrySent (entrySent (entrySent (mkComparator 0 0 0 0 0) 1) 2) 3) 2).entries
          = [1, 3]) :=
  ⟨rfl, by decide, by decide,
    sent_three_received_middle (mkComparator 0 0 0 0 0) 1 2 3 rfl (by decide) (by decide)⟩

/-- Claim C3 counterexample: with pending buffer `[1, 0, 0]` (the timestamp 0 sent
twice), a single `entryReceived 0` matches at indices 1 and 2 and increments the
out-of-order counter twice — refuting "no call increments the out-of-order counter
more than once". -/
theorem entryReceived_double_out_of_order_cex :
    ({ mkComparator 0 0 0 0 0 with entries := [1, 0, 0] } : Comparator).outOfOrderEntries = 0 ∧
      (entryReceived { mkComparator 0 0 0 0 0 with entries := [1, 0, 0] } 0).outOfOrderEntries = 2 := by
  decide

/-- Claim C3 (amended): provided the pending buffer holds the received timestamp at
most once, every `entryReceived` call performs exactly one classification: exactly
one of the out-of-order, duplicate or unexpected counters moves up by one, or — the
implicit matched-ok case — the match is at index 0 and none of the three counters
moves (comparator.go:173-220). -/
theorem entryReceived_exactly_one_classification (c : Comparator) (ts : Time)
    (hc : matchCount ts c.entries ≤ 1) :
    ((entryReceived c ts).outOfOrderEntries = c.outOfOrderEntries + 1 ∧
        (entryReceived c ts).duplicateEntries = c.duplicateEntries ∧
        (entryReceived c ts).unexpectedEntries = c.unexpectedEntries) ∨
      ((entryReceived c ts).outOfOrderEntries = c.outOfOrderEntries ∧
        (entryReceived c ts).duplicateEntries = c.duplicateEntries + 1 ∧
        (entryReceived c ts).unexpectedEntries = c.unexpectedEntries) ∨
      ((entryReceived c ts).outOfOrderEntries = c.outOfOrderEntries ∧
        (entryReceived c ts).duplicateEntries = c.duplicateEntries ∧
        (entryReceived c ts).unexpectedEntries = c.unexpectedEntries + 1) ∨
      (c.entries.head? = some ts ∧
        (entryReceived c ts).outOfOrderEntries = c.outOfOrderEntries ∧
        (entryReceived c ts).duplicateEntries = c.duplicateEntries ∧
        (entryReceived c ts).unexpectedEntries = c.unexpectedEntries) := by
  by_cases hmem : ts ∈ c.entries
  · have hm : (receiveScan ts 0 c.entries).matched = true := by
      rw [receiveScan_matched]; simpa using hmem
    have hone : matchCount ts c.entries = 1 := by
      have hpos : 0 < matchCount ts c.entries :=
        List.countP_pos_iff.mpr ⟨ts, hmem, by simp⟩
      omega
    have hood : (entryReceived c ts).outOfOrderEntries
        = c.outOfOrderEntries + (receiveScan ts 0 c.entries).oooInc := by
      simp [entryReceived, hm]
    have hdd : (entryReceived c ts).duplicateEntries = c.duplicateEntries := by
      simp [entryReceived, hm]
    have hud : (entryReceived c ts).unexpectedEntries = c.unexpectedEntries := by
      simp [entryReceived, hm]
    by_cases hh : c.entries.head? = some ts
    · refine Or.inr (Or.inr (Or.inr ⟨hh, ?_, hdd, hud⟩))
      rw [hood, receiveScan_ooo_zero, hone, if_pos hh]
      omega
    · refine Or.inl ⟨?_, hdd, hud⟩
      rw [hood, receiveScan_ooo_zero, hone, if_neg hh]
  · have hm : (receiveScan ts 0 c.entries).matched = false := by
      rw [receiveScan_matched]; simpa using hmem
    by_cases hack : ts ∈ c.ackdEntries
    · obtain ⟨h1, h2, h3⟩ := entryReceived_duplicate_case c ts hmem hack
      exact Or.inr (Or.inl ⟨h1, h2, h3⟩)
    · have hac : c.ackdEntries.contains ts = false := by simpa using hack
      refine Or.inr (Or.inr (Or.inl ?_))
      simp [entryReceived, hm, hac, hack]

/-- Witness for the exactly-one-classification theorem at a concrete state. -/
theorem entryReceived_exactly_one_classification_witness :
    matchCount 2 ({ mkComparator 0 0 0 0 0 with entries := [1, 2] } : Comparator).entries ≤ 1 ∧
      (((entryReceived { mkComparator 0 0 0 0 0 with entries := [1, 2] } 2).outOfOrderEntries = 0 + 1 ∧
          (entryReceived { mkComparator 0 0 0 0 0 with entries := [1, 2] } 2).duplicateEntries = 0 ∧
          (entryReceived { mkComparator 0 0 0 0 0 with entries := [1, 2] } 2).unexpectedEntries = 0) ∨
        ((entryReceived { mkComparator 0 0 0 0 0 with entries := [1, 2] } 2).outOfOrderEntries = 0 ∧
          (entryReceived { mkComparator 0 0 0 0 0 with entries := [1, 2] } 2).duplicateEntries = 0 + 1 ∧
          (entryReceived { mkComparator 0 0 0 0 0 with entries := [1, 2] } 2).unexpectedEntries = 0) ∨
        ((entryReceived { mkComparator 0 0 0 0 0 with entries := [1, 2] } 2).outOfOrderEntries = 0 ∧
          (entryReceived { mkComparator 0 0 0 0 0 with entries := [1, 2] } 2).duplicateEntries = 0 ∧
          (entryReceived { mkComparator 0 0 0 0 0 with entries := [1, 2] } 2).unexpectedEntries = 0 + 1) ∨
        (({ mkComparator 0 0 0 0 0 with entries := [1, 2] } : Comparator).entries.head? = some 2 ∧
          (entryReceived { mkComparator 0 0 0 0 0 with entries := [1, 2] } 2).outOfOrderEntries = 0 ∧
          (entryReceived { mkComparator 0 0 0 0 0 with entries := [1, 2] } 2).duplicateEntries = 0 ∧
          (entryReceived { mkComparator 0 0 0 0 0 with entries := [1, 2] } 2).unexpectedEntries = 0)) :=
  ⟨by decide, entryReceived_exactly_one_classification _ 2 (by decide)⟩

/-- The eviction pass of `spotCheckEntries` installs the compacted survivors. -/
theorem spotCheckEntries_spotCheck (c : Comparator) (currTime : Time)
    (query : Time → Time → Except String (List Time)) :
    (spotCheckEntries c currTime query).spotCheck
      = c.spotCheck.filter (fun e => !decide (e < currTime - c.spotCheckMax)) := by
  simp [spotCheckEntries]

/-- Claim C8: the spot-check buffer invariant — consecutive sampled timestamps at
least `spotCheckInterval` apart — is preserved both by `entrySent` (which appends
only when the buffer is empty or the gap from the last sample is large enough,
comparator.go:163-168) and by the age-based eviction pass of `spotCheckEntries`
(comparator.go:296-311), for any non-negative sampling interval. -/
theorem spotCheck_gap_invariant (c : Comparator) (t currTime : Time)
    (query : Time → Time → Except String (List Time))
    (hpos : 0 ≤ c.spotCheckInterval)
    (hinv : SpotGapInv c.spotCheckInterval c.spotCheck) :
    SpotGapInv c.spotCheckInterval (entrySent c t).spotCheck ∧
      SpotGapInv c.spotCheckInterval (spotCheckEntries c currTime query).spotCheck := by
  constructor
  · have hs : (entrySent c t).spotCheck =
        (match c.spotCheck.getLast? with
          | none => c.spotCheck ++ [t]
          | some last =>
            if c.spotCheckInterval ≤ t - last then c.spotCheck ++ [t] else c.spotCheck) := by
      simp [entrySent]
    rw [hs]
    cases hg : c.spotCheck.getLast? with
    | none =>
      have hnil : c.spotCheck = [] := List.getLast?_eq_none_iff.mp hg
      simp [SpotGapInv, hnil]
    | some last =>
      show SpotGapInv c.spotCheckInterval
        (if c.spotCheckInterval ≤ t - last then c.spotCheck ++ [t] else c.spotCheck)
      by_cases hcond : c.spotCheckInterval ≤ t - last
      · rw [if_pos hcond]
        unfold SpotGapInv at hinv ⊢
        rw [List.chain'_append]
        refine ⟨hinv, List.chain'_singleton t, ?_⟩
        intro x hx y hy
        rw [hg] at hx
        simp at hx hy
        subst hx
        subst hy
        exact hcond
      · rw [if_neg hcond]
        exact hinv
  · rw [spotCheckEntries_spotCheck]
    haveI : IsTrans Time (fun a b => c.spotCheckInterval ≤ b - a) :=
      ⟨fun a b d hab hbd => by
        have h1 : c.spotCheckInterval ≤ b - a := hab
        have h2 : c.spotCheckInterval ≤ d - b := hbd
        show c.spotCheckInterval ≤ d - a
        linarith⟩
    unfold SpotGapInv at hinv ⊢
    rw [List.chain'_iff_pairwise] at hinv ⊢
    exact hinv.sublist (List.filter_sublist _)

/-- Witness for the spot-check gap invariant theorem at a concrete state. -/
theorem spotCheck_gap_invariant_witness :
    0 ≤ ({ mkComparator 0 1000000000 3000000000 0 0 with
        spotCheck := [0, 2000000000] } : Comparator).spotCheckInterval ∧
      SpotGapInv ({ mkComparator 0 1000000000 3000000000 0 0 with
          spotCheck := [0, 2000000000] } : Comparator).spotCheckInterval
        ([0, 2000000000] : List Time) ∧
      (SpotGapInv ({ mkComparator 0 1000000000 3000000000 0 0 with
          spotCheck := [0, 2000000000] } : Comparator).spotCheckInterval
          (entrySent { mkComparator 0 1000000000 3000000000 0 0 with
            spotCheck := [0, 2000000000] } 4000000000).spotCheck ∧
        SpotGapInv ({ mkComparator 0 1000000000 3000000000 0 0 with
            spotCheck := [0, 2000000000] } : Comparator).spotCheckInterval
          (spotCheckEntries { mkComparator 0 1000000000 3000000000 0 0 with
            spotCheck := [0, 2000000000] } 2500000000 (fun _ _ => Except.ok [])).spotCheck) :=
  ⟨by decide, by decide,
    spotCheck_gap_invariant _ 4000000000 2500000000 (fun _ _ => Except.ok [])
      (by decide) (by decide)⟩

/-- `confirmMissing` on a non-empty batch whose query succeeds: the query spans
`[first - 10s, last + 10s]`, the debug dumps are written, and `missingEntries` is
incremented once per batch element absent from the result and not at all for the
elements present (comparator.go:396-443). -/
theorem confirmMissing_ok (c : Comparator) (m : Time) (rest recvd : List Time)
    (query : Time → Time → Except String (List Time))
    (hq : ∀ s e, query s e = Except.ok recvd) :
    confirmMissing c (m :: rest) query =
      some { c with
        missingEntries := c.missingEntries
          + ((m :: rest).filter (fun x => !recvd.contains x)).length,
        log := c.log
          ++ ((m :: rest).map LogEvent.debugWebsocketMissingEntry
              ++ recvd.map LogEvent.debugQueryResult)
          ++ ((m :: rest).filter (fun x => !recvd.contains x)).map LogEvent.entryNotReceived } := by
  obtain ⟨v, hv⟩ : ∃ v, (m :: rest).getLast? = some v := by
    cases hg : (m :: rest).getLast? with
    | none => exact absurd (List.getLast?_eq_none_iff.mp hg) (by simp)
    | some v => exact ⟨v, rfl⟩
  unfold confirmMissing
  rw [List.head?_cons, hv]
  simp [hq]

/-- `confirmMissing` never hits its empty-batch (panic) branch on a cons batch. -/
theorem confirmMissing_cons_isSome (c : Comparator) (m : Time) (rest : List Time)
    (query : Time → Time → Except String (List Time)) :
    (confirmMissing c (m :: rest) query).isSome = true := by
  obtain ⟨v, hv⟩ : ∃ v, (m :: rest).getLast? = some v := by
    cases hg : (m :: rest).getLast? with
    | none => exact absurd (List.getLast?_eq_none_iff.mp hg) (by simp)
    | some v => exact ⟨v, rfl⟩
  unfold confirmMissing
  rw [List.head?_cons, hv]
  rcases hq2 : query (m - 10 * nsPerSecond) (v + 10 * nsPerSecond) with msg | recvd <;>
    simp [hq2]

/-- Claim C7: a prune tick evicts from the pending buffer exactly the entries older
than `now - maxWait` (the compacted survivors remain, in order) and hands the
evicted batch to the confirmer; when the confirmation query succeeds, the
confirmed-missing counter goes up exactly once per evicted timestamp absent from
the query result and not at all for the present ones (comparator.go:344-375 and
396-443). -/
theorem prune_evicts_and_confirm_counts (c : Comparator) (now : Time) (recvd : List Time)
    (query : Time → Time → Except String (List Time))
    (hq : ∀ s e, query s e = Except.ok recvd) :
    ∃ c', pruneEntries c now query = some c' ∧
      c'.entries = c.entries.filter (fun e => !decide (e < now - c.maxWait)) ∧
      c'.missingEntries = c.missingEntries
        + ((c.entries.filter (fun e => decide (e < now - c.maxWait))).filter
            (fun x => !recvd.contains x)).length := by
  simp only [pruneEntries]
  cases hM : c.entries.filter (fun e => decide (e < now - c.maxWait)) with
  | nil =>
    refine ⟨_, rfl, by simp, by simp⟩
  | cons m rest =>
    rw [List.isEmpty_cons]
    rw [if_neg (by simp)]
    rw [confirmMissing_ok _ m rest recvd query hq]
    refine ⟨_, rfl, by simp, by simp⟩

/-- A backend stub that always answers an empty, successful result set. -/
def constEmptyQuery : Time → Time → Except String (List Time) :=
  fun _ _ => Except.ok []

/-- Witness for the prune-and-confirm theorem: entries `[0, 10s]`, `maxWait = 5s`,
`now = 9s` evicts exactly `[0]`; an empty query result confirms it missing. -/
theorem prune_evicts_and_confirm_counts_witness :
    (∀ s e, constEmptyQuery s e = Except.ok ([] : List Time)) ∧
      ∃ c', pruneEntries { mkComparator 5000000000 0 0 0 0 with
          entries := [0, 10000000000] } 9000000000 constEmptyQuery = some c' ∧
        c'.entries = (({ mkComparator 5000000000 0 0 0 0 with
            entries := [0, 10000000000] } : Comparator).entries.filter
              (fun e => !decide (e < 9000000000 - ({ mkComparator 5000000000 0 0 0 0 with
                entries := [0, 10000000000] } : Comparator).maxWait))) ∧
        c'.missingEntries = ({ mkComparator 5000000000 0 0 0 0 with
            entries := [0, 10000000000] } : Comparator).missingEntries
          + ((({ mkComparator 5000000000 0 0 0 0 with
              entries := [0, 10000000000] } : Comparator).entries.filter
                (fun e => decide (e < 9000000000 - ({ mkComparator 5000000000 0 0 0 0 with
                  entries := [0, 10000000000] } : Comparator).maxWait))).filter
              (fun x => !(([] : List Time).contains x))).length :=
  ⟨fun _ _ => rfl,
    prune_evicts_and_confirm_counts _ 9000000000 [] constEmptyQuery (fun _ _ => rfl)⟩

/-- Claim C10: the unguarded indexing `missing[0]` / `missing[len-1]` in
`confirmMissing` (modelled by the `none` result) fires only on an empty batch, and
`pruneEntries` — its only caller — invokes it only when the evicted batch is
non-empty (comparator.go:368-375), so every reachable `pruneEntries` call completes:
the panic branch is unreachable. -/
theorem confirmMissing_indexing_safe (c : Comparator) (now : Time)
    (query : Time → Time → Except String (List Time)) :
    confirmMissing c [] query = none ∧ (pruneEntries c now query).isSome = true := by
  constructor
  · rfl
  · simp only [pruneEntries]
    cases hM : c.entries.filter (fun e => decide (e < now - c.maxWait)) with
    | nil => simp
    | cons m rest =>
      rw [List.isEmpty_cons]
      rw [if_neg (by simp)]
      obtain ⟨c2, hc2⟩ := Option.isSome_iff_exists.mp
        (confirmMissing_cons_isSome
          { c with entries := c.entries.filter (fun e => !decide (e < now - c.maxWait)),
                   wsMissingEntries := c.wsMissingEntries + (m :: rest).length,
                   log := c.log ++ (m :: rest).map LogEvent.entryNotReceivedWs }
          m rest query)
      rw [hc2]
      simp

end LokiCanary
